import Mathlib

/-!
# Verification of the sqlplus multi-tenant SQL execution core

Shallow embedding of the repository's core functions:

* `src/lib/sql-executor.ts` — `validateUserSchemaAccess`, `executeUserQuery`,
  `formatQueryResult`;
* `src/lib/schema-introspection.ts` — `getUserSchemaInfo`;
* `src/lib/ai-agent.ts` — the next-available-id hint computation of
  `generateSQLWithAgent`;
* `src/lib/ai-sql-generator.ts` — the post-model processing of
  `generateSQLFromPrompt`.

Strings are modelled over `List Char`; the JavaScript regular-expression
scans are translated into explicit recursive scanners with the same
left-to-right, non-overlapping, greedy matching behaviour.  Character
classes (`\w`, `\s`) and case mapping are modelled over ASCII, which covers
the character set the program works with (SQL text and sanitized schema
names).  Database interaction is modelled by an explicit driver interface
(`DbModel`) whose transaction either commits a threaded state or rolls back
to the pre-transaction state, which is the documented contract of the
serverless driver used by the source.
-/

namespace SqlPlus

/-! ## Character and string utilities -/

/-- JavaScript `\w` character class: `[a-zA-Z0-9_]` (ASCII). -/
def wordChar (c : Char) : Bool :=
  (('a' ≤ c && c ≤ 'z') || ('A' ≤ c && c ≤ 'Z') || ('0' ≤ c && c ≤ '9') || c = '_')

/-- JavaScript `\s` whitespace class restricted to its ASCII members. -/
def isJsSpace (c : Char) : Bool :=
  c = ' ' || c = '\t' || c = '\n' || c = '\r' || c = '\x0b' || c = '\x0c'

/-- The single-quote character `'` (written via its code point). -/
def sqc : Char := Char.ofNat 39

/-- The single-quote character as a one-character string. -/
def sq : String := String.mk [sqc]

/-- Lower-case a string character-wise (ASCII, as the source's
`toLowerCase` behaves on the inputs in scope). -/
def lowerStr (s : String) : String := String.mk (s.toList.map Char.toLower)

/-- Upper-case a string character-wise (ASCII `toUpperCase`). -/
def upperStr (s : String) : String := String.mk (s.toList.map Char.toUpper)

/-- Strip whitespace from both ends of a character list (JS `trim`). -/
def trimChars (cs : List Char) : List Char :=
  ((cs.dropWhile isJsSpace).reverse.dropWhile isJsSpace).reverse

/-- JS `String.prototype.trim`. -/
def trimStr (s : String) : String := String.mk (trimChars s.toList)

/-- Does `pat` occur as a contiguous substring of `hay`? -/
def containsSub (hay pat : List Char) : Bool :=
  (List.range (hay.length + 1)).any fun i => pat.isPrefixOf (hay.drop i)

/-- Substring test on strings (JS `includes`). -/
def containsSubStr (hay pat : String) : Bool := containsSub hay.toList pat.toList

/-- Does the (lower-case) pattern `pat` match at the start of `cs`,
comparing case-insensitively? -/
def ciStarts (pat cs : List Char) : Bool :=
  pat = (cs.take pat.length).map Char.toLower

/-- JS `startsWith` on strings. -/
def startsWithStr (s pat : String) : Bool := pat.toList.isPrefixOf s.toList

/-- JS `endsWith` on strings. -/
def endsWithStr (s pat : String) : Bool := pat.toList.isSuffixOf s.toList

/-! ## Schema-name sanitization

`username.replace(/[^a-zA-Z0-9_]/g, '_')` — every character outside
`[a-zA-Z0-9_]` is replaced by `_`, one output character per input
character. -/

/-- One step of the sanitizer. -/
def sanitizeChar (c : Char) : Char := if wordChar c then c else '_'

/-- Characters of the sanitized schema name. -/
def sanitizeChars (cs : List Char) : List Char := cs.map sanitizeChar

/-- The sanitizer `username.replace(/[^a-zA-Z0-9_]/g, '_')` from
`sql-executor.ts`. -/
def sanitize (s : String) : String := String.mk (sanitizeChars s.toList)

theorem sanitizeChar_wordChar (c : Char) : wordChar (sanitizeChar c) = true := by
  unfold sanitizeChar
  split
  · assumption
  · decide

theorem sanitizeChar_idem (c : Char) : sanitizeChar (sanitizeChar c) = sanitizeChar c := by
  unfold sanitizeChar
  split
  · rfl
  · decide

theorem sanitizeChars_all_wordChar (cs : List Char) :
    (sanitizeChars cs).all wordChar = true := by
  induction cs with
  | nil => rfl
  | cons c cs ih =>
      simp only [sanitizeChars, List.map_cons, List.all_cons,
        sanitizeChar_wordChar, Bool.true_and]
      simpa [sanitizeChars] using ih

theorem sanitizeChars_idem (cs : List Char) :
    sanitizeChars (sanitizeChars cs) = sanitizeChars cs := by
  simp only [sanitizeChars, List.map_map]
  exact List.map_congr_left fun c _ => sanitizeChar_idem c

theorem sanitize_toList (s : String) : (sanitize s).toList = sanitizeChars s.toList := rfl

/-- No semicolon ever survives sanitization (used for statement splitting). -/
theorem sanitizeChars_no_semicolon (cs : List Char) : ';' ∉ sanitizeChars cs := by
  intro hmem
  rcases List.mem_map.mp hmem with ⟨c, _, hc⟩
  have := sanitizeChar_wordChar c
  rw [hc] at this
  exact absurd this (by decide)

/-! ## Schema access validator (`validateUserSchemaAccess`)

The source scans the lower-cased, trimmed query with the JavaScript regex
`/(\w+)\.(\w+)/g` (a `while (match = pattern.exec(cleanQuery))` loop).  The
scanner below reproduces that behaviour exactly: leftmost match, greedy
`\w+` runs, non-overlapping continuation after each match.  `fuel` only
bounds the recursion; every step consumes at least one character, so
starting with `fuel = cs.length` never exhausts it. -/

/-- One scan step of `/(\w+)\.(\w+)/g`. -/
def extractRefsAux : Nat → List Char → List (List Char × List Char)
  | 0, _ => []
  | _ + 1, [] => []
  | fuel + 1, c :: rest =>
    if wordChar c then
      let r1 := c :: rest.takeWhile wordChar
      match rest.dropWhile wordChar with
      | '.' :: rest2 =>
        match rest2 with
        | d :: rest2' =>
          if wordChar d then
            (r1, d :: rest2'.takeWhile wordChar) :: extractRefsAux fuel (rest2'.dropWhile wordChar)
          else
            extractRefsAux fuel rest2
        | [] => []
      | rest1 => extractRefsAux fuel rest1
    else
      extractRefsAux fuel rest

/-- All `(left, right)` pairs matched by `/(\w+)\.(\w+)/g` over `cs`,
in match order. -/
def extractRefs (cs : List Char) : List (List Char × List Char) :=
  extractRefsAux cs.length cs

/-- Is `left` a schema reference that is neither the tenant's own schema,
`public`, nor `information_schema`? -/
def isForeignRef (schemaName left : List Char) : Bool :=
  left ≠ schemaName && left ≠ "public".toList && left ≠ "information_schema".toList

/-- Error text of the validator's first rule. -/
def schemaRefErr (referencedSchema schemaName : String) : String :=
  "Access denied: Cannot access schema " ++ sq ++ referencedSchema ++ sq ++
    ". You can only access your own schema " ++ sq ++ schemaName ++ sq ++ "."

/-- Error text of the information-schema/catalog rule. -/
def infoSchemaErr : String :=
  "Access denied: You can only access your own schema information for privacy protection."

/-- Error text of the public-schema rule. -/
def publicSchemaErr : String :=
  "Access denied: Cannot access public schema for privacy protection."

/-- Does the test `t` succeed at some position of `cs`? -/
def anyPos (t : List Char → Bool) (cs : List Char) : Bool :=
  (List.range (cs.length + 1)).any fun i => t (cs.drop i)

/-- Match `key` + `\s*` + `=` + `\s*` + `valLit` at the head of `cs`
(the tail shape of the allow-list patterns). -/
def matchEqAt (key valLit : List Char) (cs : List Char) : Bool :=
  key.isPrefixOf cs &&
    (match (cs.drop key.length).dropWhile isJsSpace with
     | '=' :: r2 => valLit.isPrefixOf (r2.dropWhile isJsSpace)
     | _ => false)

/-- Test for `new RegExp(A + ".*" + B, 'is')`: an occurrence of `a` followed
anywhere later (newlines allowed, `s` flag) by a position where `t`
matches. -/
def aThenB (a : List Char) (t : List Char → Bool) (cs : List Char) : Bool :=
  (List.range (cs.length + 1)).any fun i =>
    a.isPrefixOf (cs.drop i) && anyPos t ((cs.drop i).drop a.length)

/-- Test for `new RegExp(A + ".*" + B, 'i')` (no `s` flag): as `aThenB` but the gap
matched by `.*` cannot contain a newline. -/
def aThenBLine (a : List Char) (t : List Char → Bool) (cs : List Char) : Bool :=
  (List.range (cs.length + 1)).any fun i =>
    a.isPrefixOf (cs.drop i) &&
      anyPos t (((cs.drop i).drop a.length).takeWhile (fun c => c ≠ '\n'))

/-- The test `/information_schema\.|pg_\w+/.test(cleanQuery)`. -/
def testInfoPg (cs : List Char) : Bool :=
  containsSub cs "information_schema.".toList ||
    anyPos (fun s =>
      match s with
      | 'p' :: 'g' :: '_' :: c :: _ => wordChar c
      | _ => false) cs

/-- The test `/\bpublic\.\w+/.test(cleanQuery)`. -/
def testPublicRef (cs : List Char) : Bool :=
  (List.range (cs.length + 1)).any fun i =>
    (decide (i = 0) || !wordChar (cs.getD (i - 1) ' ')) &&
      (match cs.drop i with
       | 'p' :: 'u' :: 'b' :: 'l' :: 'i' :: 'c' :: '.' :: c :: _ => wordChar c
       | _ => false)

/-- A quoted literal `'x'` as a character list. -/
def quoted (x : List Char) : List Char := sqc :: x ++ [sqc]

/-- The eight `allowedSchemaQueries` patterns from `sql-executor.ts`
(lines 44–56), tested against the clean query.  `schemaName` is the
sanitized lower-cased schema name, `usernameLower` the raw username
lower-cased (the source interpolates the raw username into the sixth
pattern; the interpolation is modelled as a literal match). -/
def allowedSchemaQuery (schemaName usernameLower cs : List Char) : Bool :=
  aThenB "information_schema.tables".toList
    (matchEqAt "table_schema".toList (quoted schemaName)) cs ||
  aThenB "information_schema.columns".toList
    (matchEqAt "table_schema".toList (quoted schemaName)) cs ||
  aThenB "information_schema.key_column_usage".toList
    (matchEqAt "table_schema".toList (quoted schemaName)) cs ||
  aThenB "information_schema.table_constraints".toList
    (matchEqAt "table_schema".toList (quoted schemaName)) cs ||
  aThenB "pg_tables".toList
    (matchEqAt "schemaname".toList (quoted schemaName)) cs ||
  aThenB "pg_tables".toList
    (matchEqAt "schemaname".toList (quoted usernameLower)) cs ||
  aThenB "information_schema.tables".toList
    (matchEqAt "table_schema".toList "current_schema".toList) cs ||
  aThenB "information_schema.columns".toList
    (matchEqAt "table_schema".toList "current_schema".toList) cs

/-- The fallback allow check `information_schema\.tables.*'schemaName'`
(flag `i` only, so the gap may not span lines). -/
def userSchemaTableQuery (schemaName cs : List Char) : Bool :=
  aThenBLine "information_schema.tables".toList
    (fun s => (quoted schemaName).isPrefixOf s) cs

/-- Result type of the validator (`{ isValid, error? }`). -/
structure ValidationResult where
  isValid : Bool
  error : Option String
deriving Repr, DecidableEq

/-- Embedding of `validateUserSchemaAccess(query, username)` from `sql-executor.ts`
(lines 22–85).  The `while` loop over `/(\w+)\.(\w+)/g` returns on the
first foreign reference, which is `List.find?` over the matches in scan
order. -/
def validateUserSchemaAccess (query username : String) : ValidationResult :=
  let cleanQuery := (trimStr (lowerStr query)).toList
  let schemaName := (lowerStr (sanitize username)).toList
  match (extractRefs cleanQuery).find? (fun p => isForeignRef schemaName p.1) with
  | some p => ⟨false, some (schemaRefErr (String.mk p.1) (String.mk schemaName))⟩
  | none =>
    if testInfoPg cleanQuery &&
        !allowedSchemaQuery schemaName (lowerStr username).toList cleanQuery &&
        !userSchemaTableQuery schemaName cleanQuery then
      ⟨false, some infoSchemaErr⟩
    else if testPublicRef cleanQuery then
      ⟨false, some publicSchemaErr⟩
    else
      ⟨true, none⟩

/-! ## Query executor (`executeUserQuery`)

The executor is embedded against an explicit driver interface.  Pure
pre-processing (the schemaname-literal scan, validation, dangerous-pattern
check, markdown cleanup and statement splitting) is translated directly;
the database is a state threaded through the driver calls, and the
driver's `transaction` either commits the threaded state or — on a thrown
statement error — rolls the whole batch back to the pre-transaction state,
which is the serverless driver's documented transaction contract. -/

/-- A result row, as a column-name/value association list in column order
(models a JS row object; values are rendered as strings). -/
abbrev Row := List (String × String)

/-- The `QueryResult` interface from `sql-executor.ts`. -/
structure QueryResult where
  success : Bool
  data : Option (List Row) := none
  message : Option String := none
  error : Option String := none
  rowCount : Option Int := none
deriving Repr, DecidableEq

/-- Shape of a single driver response: an array of rows, a command-tag
object with an optional affected-row count, or anything else. -/
inductive SqlResult where
  | rows (rs : List Row)
  | command (tag : String) (rowCount : Option Int)
  | other
deriving Repr, DecidableEq

/-- A database call issued by the executor, in order. -/
inductive DbCall where
  | createSchema (name : String)
  | exec (stmt : String)
deriving Repr, DecidableEq

/-- Driver model: schema creation and single-statement execution over an
abstract database state `Db`.  An `Except.error` models a thrown driver
exception carrying the error message. -/
structure DbModel (Db : Type) where
  createSchema : String → Db → Except String Db
  execStmt : String → Db → Except String (Db × SqlResult)

/-- Is the quote character a schemaname-literal delimiter (`['"]`)? -/
def isQuoteChar (c : Char) : Bool := c = sqc || c = '"'

/-- The literal `schemaname` (for the case-insensitive scan). -/
def schemanameLit : List Char := "schemaname".toList

/-- Try to match `/schemaname\s*=\s*['"]([^'"]+)['"]/i` at the head of
`cs`; on success return the captured value and the rest of the input
after the closing quote. -/
def tryMatchSchemaname (cs : List Char) : Option (String × List Char) :=
  if ciStarts schemanameLit cs then
    match (cs.drop 10).dropWhile isJsSpace with
    | '=' :: r2 =>
      match r2.dropWhile isJsSpace with
      | q :: r4 =>
        if isQuoteChar q then
          match r4.takeWhile (fun c => !isQuoteChar c), r4.dropWhile (fun c => !isQuoteChar c) with
          | v :: vs, _ :: r6 => some (String.mk (v :: vs), r6)
          | _, _ => none
        else none
      | [] => none
    | _ => none
  else none

/-- Global scan with `/schemaname\s*=\s*['"]([^'"]+)['"]/gi`: captured
values in match order.  A successful match consumes at least twelve
characters and a failed position one, so `fuel = cs.length` suffices. -/
def scanSchemanameAux : Nat → List Char → List String
  | 0, _ => []
  | _ + 1, [] => []
  | fuel + 1, c :: rest =>
    match tryMatchSchemaname (c :: rest) with
    | some (v, r6) => v :: scanSchemanameAux fuel r6
    | none => scanSchemanameAux fuel rest

/-- All captured `schemaname = '<value>'` literals of a query. -/
def scanSchemaname (s : String) : List String :=
  scanSchemanameAux s.toList.length s.toList

/-- Error text of the schemaname-literal denial (lines 109–113); the
grouping brackets the `Attempted to access '<v>'` fragment, the rendered
text is the source's template string. -/
def schemanameDeniedErr (currentUserName requested : String) : String :=
  ("Access denied: You can only access your own schema " ++ sq ++ currentUserName ++ sq ++
      ". ") ++
    ("Attempted to access " ++ sq ++ requested ++ sq) ++ "."

/-- Match `k1` + `\s+` + `k2` (lower-case keywords) at the head of `cs`. -/
def matchKwSpKw (k1 k2 cs : List Char) : Bool :=
  k1.isPrefixOf cs &&
    (let r := cs.drop k1.length
     !(r.takeWhile isJsSpace).isEmpty && k2.isPrefixOf (r.dropWhile isJsSpace))

/-- The `dangerousPatterns` tests of `executeUserQuery` (lines 126–137),
all case-insensitive. -/
def dangerousHit (q : String) : Bool :=
  let l := (lowerStr q).toList
  anyPos (matchKwSpKw "drop".toList "database".toList) l ||
  anyPos (matchKwSpKw "create".toList "database".toList) l ||
  anyPos (matchKwSpKw "drop".toList "user".toList) l ||
  anyPos (matchKwSpKw "create".toList "user".toList) l ||
  containsSub l "grant".toList ||
  containsSub l "revoke".toList ||
  containsSub l "pg_authid".toList ||
  containsSub l "pg_shadow".toList ||
  containsSub l "pg_user".toList

/-- Remove every occurrence of ``/```sql\s*/gi`` (line 173, first
replace). -/
def stripSqlFencesAux : Nat → List Char → List Char
  | 0, cs => cs
  | _ + 1, [] => []
  | fuel + 1, c :: rest =>
    if ciStarts "```sql".toList (c :: rest) then
      stripSqlFencesAux fuel (((c :: rest).drop 6).dropWhile isJsSpace)
    else
      c :: stripSqlFencesAux fuel rest

/-- Remove every occurrence of ``/```\s*/g`` (line 173, second replace). -/
def stripFencesAux : Nat → List Char → List Char
  | 0, cs => cs
  | _ + 1, [] => []
  | fuel + 1, c :: rest =>
    if "```".toList.isPrefixOf (c :: rest) then
      stripFencesAux fuel (((c :: rest).drop 3).dropWhile isJsSpace)
    else
      c :: stripFencesAux fuel rest

/-- The alternatives of `/^(here's|here is|the sql query is|sql query:)/i`,
in the order the regex tries them. -/
def aiPreambles : List (List Char) :=
  ["here".toList ++ sqc :: "s".toList,
   "here is".toList,
   "the sql query is".toList,
   "sql query:".toList]

/-- Strip one leading AI preamble if present (line 176). -/
def stripAiPreamble (cs : List Char) : List Char :=
  match aiPreambles.find? (fun p => ciStarts p cs) with
  | some p => cs.drop p.length
  | none => cs

/-- The replace `/\n\s*$/g` with `''` (line 177): drop the text from the first
newline of the maximal trailing whitespace run to the end. -/
def stripTrailingNewline (cs : List Char) : List Char :=
  let wsuffLen := (cs.reverse.takeWhile isJsSpace).length
  let start := cs.length - wsuffLen
  match (cs.drop start).findIdx? (fun c => c = '\n') with
  | some j => cs.take (start + j)
  | none => cs

/-- The markdown/AI cleanup applied to the query before splitting
(lines 170–177). -/
def cleanupAI (cs : List Char) : List Char :=
  stripTrailingNewline (stripAiPreamble (stripFencesAux
    (stripSqlFencesAux cs.length cs).length (stripSqlFencesAux cs.length cs)))

/-- JS `split(';')`: split at every semicolon, keeping empty fragments. -/
def splitSemi : List Char → List (List Char)
  | [] => [[]]
  | c :: rest =>
    if c = ';' then [] :: splitSemi rest
    else
      match splitSemi rest with
      | [] => [[c]]
      | h :: t => (c :: h) :: t

/-- The prepended `SET search_path TO "<schemaName>"` command
(line 180). -/
def setPathCmd (schemaName : String) : String :=
  "SET search_path TO \"" ++ schemaName ++ "\""

/-- Split the path-prefixed query into trimmed non-empty statements
(lines 181–184). -/
def statementList (schemaName processed : String) : List String :=
  ((splitSemi (setPathCmd schemaName ++ "; " ++ processed).toList).map
    (fun f => String.mk (trimChars f))).filter (fun s => s ≠ "")

/-- The statement text actually sent to the driver: statements other than
`SET ...` get a trailing semicolon re-appended (line 203). -/
def toExecStr (s : String) : String :=
  if startsWithStr (upperStr s) "SET" then s else s ++ ";"

/-- The wrapped error thrown for a failed statement (line 226); `i` is the
zero-based index. -/
def wrapStmtErr (i : Nat) (stmt innerMsg : String) : String :=
  "Error in statement " ++ toString (i + 1) ++ " (\"" ++ stmt ++ "\"): " ++
    (if innerMsg = "" then "Unknown error" else innerMsg)

/-- The per-statement success message (lines 210–221). -/
def stmtMessage (i : Nat) (stmt : String) : SqlResult → String
  | .rows rs =>
    if rs.length = 0 && !startsWithStr (upperStr stmt) "SELECT" then
      "Statement " ++ toString (i + 1) ++ " executed successfully."
    else
      "Statement " ++ toString (i + 1) ++ ": " ++ toString rs.length ++ " row(s) returned."
  | .command tag _ =>
    "Statement " ++ toString (i + 1) ++ " (" ++ tag ++ ") executed successfully."
  | .other => "Statement " ++ toString (i + 1) ++ " executed successfully."

/-- Row/row-count contribution of one statement result (lines 207–219). -/
def stmtContribution : SqlResult → List Row × Int
  | .rows rs => (rs, (rs.length : Int))
  | .command _ rc => ([], rc.getD 0)
  | .other => ([], 0)

/-- The transaction body (lines 194–231): execute the statements in
order, accumulating rows, the total row count and the per-statement
messages; a driver error aborts with the wrapped message.  The issued
driver calls are returned alongside for both outcomes. -/
def txRun {Db : Type} (m : DbModel Db) : Nat → Db → List String →
    List DbCall × Except String (Db × List Row × Int × List String)
  | _, db, [] => ([], .ok (db, [], 0, []))
  | i, db, s :: rest =>
    let qExec := toExecStr s
    match m.execStmt qExec db with
    | .error e => ([.exec qExec], .error (wrapStmtErr i s e))
    | .ok (db', res) =>
      let contrib := stmtContribution res
      match txRun m (i + 1) db' rest with
      | (tr, .error e) => (.exec qExec :: tr, .error e)
      | (tr, .ok (db2, rs2, c2, ms2)) =>
        (.exec qExec :: tr,
          .ok (db2, contrib.1 ++ rs2, contrib.2 + c2, stmtMessage i s res :: ms2))

/-- The outer-catch rewriting of PostgreSQL error messages
(lines 246–261). -/
def mapPgError (msg : String) : String :=
  let errorMessage := if msg = "" then "Unknown error occurred" else msg
  if containsSubStr errorMessage "syntax error" then "Syntax error in SQL query"
  else if containsSubStr errorMessage "relation" &&
      containsSubStr errorMessage "does not exist" then "Table or relation does not exist"
  else if containsSubStr errorMessage "column" &&
      containsSubStr errorMessage "does not exist" then "Column does not exist"
  else if containsSubStr errorMessage "duplicate key" then "Duplicate key violation"
  else if containsSubStr errorMessage "foreign key" then "Foreign key constraint violation"
  else if containsSubStr errorMessage "not null" then "Not null constraint violation"
  else errorMessage

/-- The final success message (lines 237–239). -/
def successMessage (messages : List String) : String :=
  if messages.length > 1 then
    "All " ++ toString messages.length ++ " statements executed successfully. " ++
      String.intercalate " " messages
  else
    let j := String.intercalate " " messages
    if j = "" then "Query executed successfully." else j

/-- Outcome of one `executeUserQuery` call: final database state, the
driver calls issued, and the returned `QueryResult`. -/
structure ExecOutcome (Db : Type) where
  db : Db
  trace : List DbCall
  result : QueryResult
deriving Repr, DecidableEq

/-- The transaction phase of `executeUserQuery` (lines 193–241 plus the
outer catch): commit the threaded state on success, roll back to the
pre-transaction state `db1` and rewrite the error on failure. -/
def runPhase {Db : Type} (m : DbModel Db) (db1 : Db) (schemaName : String)
    (stmts : List String) : ExecOutcome Db :=
  match txRun m 0 db1 stmts with
  | (tr, .error e) =>
    ⟨db1, .createSchema schemaName :: tr,
      ⟨false, none, none, some (mapPgError e), none⟩⟩
  | (tr, .ok (db2, allResults, totalRowCount, messages)) =>
    ⟨db2, .createSchema schemaName :: tr,
      ⟨true, some allResults, some (successMessage messages), none, some totalRowCount⟩⟩

/-- Embedding of `executeUserQuery(username, query)` from `sql-executor.ts`
(lines 87–268). -/
def executeUserQuery {Db : Type} (m : DbModel Db) (db : Db)
    (username query : String) : ExecOutcome Db :=
  let cleanQuery := trimStr query
  if cleanQuery = "" then ⟨db, [], ⟨false, none, none, some "Empty query", none⟩⟩
  else
    let currentUserName := sanitize username
    match (scanSchemaname cleanQuery).find? (fun v => v ≠ currentUserName) with
    | some v =>
      ⟨db, [], ⟨false, none, none, some (schemanameDeniedErr currentUserName v), none⟩⟩
    | none =>
      let validation := validateUserSchemaAccess cleanQuery username
      if validation.isValid = false then
        ⟨db, [], ⟨false, none, none, some (validation.error.getD "Access denied"), none⟩⟩
      else if dangerousHit cleanQuery then
        ⟨db, [], ⟨false, none, none, some "Operation not allowed for security reasons", none⟩⟩
      else
        let schemaName := sanitize username
        match m.createSchema schemaName db with
        | .error _ =>
          ⟨db, [.createSchema schemaName],
            ⟨false, none, none, some "Failed to set up user workspace", none⟩⟩
        | .ok db1 =>
          let processed := String.mk (cleanupAI cleanQuery.toList)
          let queries := statementList schemaName processed
          if queries = [] then
            ⟨db1, [.createSchema schemaName],
              ⟨false, none, none, some "Empty query or only semicolons provided", none⟩⟩
          else
            runPhase m db1 schemaName queries

/-! ## Result formatting (`formatQueryResult`, lines 270–299) -/

/-- Cell rendering `String(row[col] || '')`: a missing or empty value renders
as the empty string. -/
def cellValue (row : Row) (col : String) : String :=
  match row.lookup col with
  | some v => v
  | none => ""

/-- JS `padEnd`: pad with spaces on the right up to `width`. -/
def padEnd (s : String) (width : Nat) : String :=
  s ++ String.mk (List.replicate (width - s.length) ' ')

/-- Column widths: max of header width, widest value, and 3. -/
def columnWidth (data : List Row) (col : String) : Nat :=
  max (max col.length ((data.map fun row => (cellValue row col).length).foldl max 0)) 3

/-- Embedding of `formatQueryResult(result)` from `sql-executor.ts`. -/
def formatQueryResult (result : QueryResult) : String :=
  if result.success = false then
    "ERROR: " ++ (result.error.getD "undefined")
  else
    match result.data with
    | none => (match result.message with
               | some m => if m = "" then "Query executed successfully" else m
               | none => "Query executed successfully")
    | some [] => (match result.message with
                  | some m => if m = "" then "Query executed successfully" else m
                  | none => "Query executed successfully")
    | some (row0 :: rows') =>
      let data := row0 :: rows'
      let columns := row0.map Prod.fst
      let widths := columns.map (columnWidth data)
      let header := String.intercalate " | "
        (columns.zipWith (fun col w => padEnd col w) widths)
      let separator := String.intercalate "-+-"
        (widths.map fun w => String.mk (List.replicate w '-'))
      let rowLines := data.map fun row =>
        String.intercalate " | "
          (columns.zipWith (fun col w => padEnd (cellValue row col) w) widths)
      String.intercalate "\n"
        (header :: separator :: rowLines ++
          ["", "(" ++ toString data.length ++ " row" ++
            (if data.length ≠ 1 then "s" else "") ++ ")"])

/-! ## Schema introspection (`getUserSchemaInfo`, lines 32–146)

The introspection issues per-tenant catalog queries and a per-table
`SELECT * FROM "<table>" LIMIT 3` sample.  The tenant's visible schema is
modelled as the ordered list of its tables with their column metadata and
full row contents; `LIMIT 3` is the first three rows, and a failing
sample query (the `try/catch` at lines 119–126) leaves the sample
empty. -/

/-- The `ColumnInfo` interface from `schema-introspection.ts`. -/
structure ColumnInfo where
  columnName : String
  dataType : String
  isNullable : Bool
  defaultValue : Option String := none
  isPrimaryKey : Bool
deriving Repr, DecidableEq

/-- The `TableInfo` interface from `schema-introspection.ts`. -/
structure TableInfo where
  tableName : String
  columns : List ColumnInfo
  sampleData : List Row
deriving Repr, DecidableEq

/-- The `SchemaInfo` interface from `schema-introspection.ts`. -/
structure SchemaInfo where
  tables : List TableInfo
  totalTables : Nat
deriving Repr, DecidableEq

/-- A tenant's visible database content: tables in `pg_tables` order with
column metadata and full row contents, plus which tables' sample query
throws. -/
structure TenantDb where
  tables : List (String × List ColumnInfo × List Row)
  sampleFails : String → Bool

/-- The sample query `SELECT * FROM "<table>" LIMIT 3` wrapped in the source's
`try/catch`: the first three rows, or nothing when the query throws. -/
def tableSample (db : TenantDb) (name : String) (rows : List Row) : List Row :=
  if db.sampleFails name then [] else rows.take 3

/-- The per-table loop of `getUserSchemaInfo` (lines 58–133). -/
def introspectTables (db : TenantDb) :
    List (String × List ColumnInfo × List Row) → List TableInfo
  | [] => []
  | (name, cols, rows) :: rest =>
    ⟨name, cols, tableSample db name rows⟩ :: introspectTables db rest

/-- Embedding of `getUserSchemaInfo` (successful catalog path). -/
def getUserSchemaInfo (db : TenantDb) : SchemaInfo :=
  let tableInfos := introspectTables db db.tables
  ⟨tableInfos, tableInfos.length⟩

/-! ## The agent's next-available-id hint (`ai-agent.ts`, lines 215–241) -/

/-- JS `parseInt` on the strings in scope: optional ASCII whitespace,
optional sign, then leading decimal digits; `NaN` (here `none`) if no
digit follows. -/
def parseIntJs (s : String) : Option Int :=
  let parseDigits : List Char → Option Int := fun cs =>
    let ds := cs.takeWhile Char.isDigit
    if ds.isEmpty then none
    else some (ds.foldl (fun acc d => acc * 10 + (d.toNat - '0'.toNat : Int)) 0)
  match s.toList.dropWhile isJsSpace with
  | '-' :: rest => (parseDigits rest).map (fun n => -n)
  | '+' :: rest => parseDigits rest
  | cs => parseDigits cs

/-- The id read `parseInt(row.id)`: `none` models `NaN` (also for a missing `id`
field, where `parseInt(undefined)` is `NaN`). -/
def rowIdInt (row : Row) : Option Int :=
  (row.lookup "id").bind parseIntJs

/-- The per-table hint of `generateSQLWithAgent` (lines 217–232): one plus
the highest parsed `id` of the sampled rows, or `1` when the sample is
empty or no `id` parses. -/
def nextAvailableId (sampleData : List Row) : Int :=
  if sampleData.length > 0 then
    let idValues := (sampleData.map rowIdInt).reduceOption
    match idValues.max? with
    | some mx => mx + 1
    | none => 1
  else 1

/-- The hint map `nextAvailableIds` as an ordered association list over the relevant
tables (the source builds a `Record<string, number>` in table order). -/
def nextAvailableIds (tables : List TableInfo) : List (String × Int) :=
  tables.map fun t => (t.tableName, nextAvailableId t.sampleData)

/-! ## Single-shot generator post-processing (`ai-sql-generator.ts`,
lines 61–95)

The model call itself is external; its raw output text is the input
here. -/

/-- The `AIQueryResult` interface from `ai-sql-generator.ts`. -/
structure AIQueryResult where
  success : Bool
  sqlQuery : Option String := none
  explanation : Option String := none
  error : Option String := none
deriving Repr, DecidableEq

/-- The SQL-verb keyword validation (lines 66–72) on the lower-cased
trimmed text. -/
def hasSqlKeyword (t : String) : Bool :=
  let l := (lowerStr t).toList
  containsSub l "select".toList || containsSub l "insert".toList ||
  containsSub l "update".toList || containsSub l "delete".toList ||
  containsSub l "create".toList || containsSub l "drop".toList ||
  containsSub l "alter".toList

/-- Remove every occurrence of a literal pattern (the generator's
fence replaces have no trailing `\s*`). -/
def stripLiteralAux (pat : List Char) : Nat → List Char → List Char
  | 0, cs => cs
  | _ + 1, [] => []
  | fuel + 1, c :: rest =>
    if ciStarts pat (c :: rest) then
      stripLiteralAux pat fuel ((c :: rest).drop pat.length)
    else
      c :: stripLiteralAux pat fuel rest

/-- The cleanup ``generatedText.replace(/```sql/gi, '').replace(/```/g, '').trim()``
(lines 81–84). -/
def stripFencesGen (t : String) : String :=
  let s1 := stripLiteralAux "```sql".toList t.toList.length t.toList
  trimStr (String.mk (stripLiteralAux "```".toList s1.length s1))

/-- The post-model processing of `generateSQLFromPrompt` (lines 61–95),
applied to the model's raw output text. -/
def generateSQLPost (prompt rawText : String) : AIQueryResult :=
  let generatedText := trimStr rawText
  if !hasSqlKeyword generatedText then
    ⟨false, none, some generatedText,
      some "AI did not generate a valid SQL query. The response might be an explanation or error message."⟩
  else
    let sqlQuery := stripFencesGen generatedText
    let sqlQuery := if endsWithStr sqlQuery ";" then sqlQuery else sqlQuery ++ ";"
    ⟨true, some sqlQuery,
      some ("AI generated SQL query for: \"" ++ prompt ++ "\""), none⟩

/-- Does `s` end in exactly one semicolon (a trailing `;` not preceded by
another)? -/
def exactlyOneTrailingSemi (s : String) : Bool :=
  endsWithStr s ";" && !endsWithStr s ";;"

/-! ## Shared helper lemmas -/

theorem toList_append (a b : String) : (a ++ b).toList = a.toList ++ b.toList := rfl

theorem isPrefixOf_append_self (p b : List Char) : p.isPrefixOf (p ++ b) = true := by
  simp [List.isPrefixOf_iff_prefix]

/-- A list that occurs bracketed by `a` and `b` is a substring. -/
theorem containsSub_middle (a p b : List Char) : containsSub (a ++ p ++ b) p = true := by
  unfold containsSub
  rw [List.any_eq_true]
  refine ⟨a.length, List.mem_range.mpr ?_, ?_⟩
  · have := List.length_append (a ++ p) b
    have := List.length_append a p
    omega
  · rw [List.append_assoc, List.drop_left]
    exact isPrefixOf_append_self p b

/-- String version of `containsSub_middle`. -/
theorem containsSubStr_middle (a p b : String) : containsSubStr (a ++ p ++ b) p = true := by
  unfold containsSubStr
  rw [toList_append, toList_append]
  exact containsSub_middle a.toList p.toList b.toList

/-! ## C6 — determinism, idempotence and character set of the schema name -/

/-- C6: the schema-name derivation (replace every character outside
`[a-zA-Z0-9_]` with `_`) is deterministic (equal inputs give equal
outputs), idempotent, and its output contains only characters in
`[a-zA-Z0-9_]`. -/
theorem claim6_sanitize_props (u v : String) (h : u = v) :
    sanitize u = sanitize v ∧ sanitize (sanitize u) = sanitize u ∧
      (sanitize u).toList.all wordChar = true := by
  refine ⟨by rw [h], ?_, ?_⟩
  · show String.mk (sanitizeChars (sanitize u).toList) = sanitize u
    rw [sanitize_toList, sanitizeChars_idem]
    rfl
  · rw [sanitize_toList]
    exact sanitizeChars_all_wordChar _

theorem claim6_witness :
    sanitize "user@example.com" = sanitize "user@example.com" ∧
      sanitize (sanitize "user@example.com") = sanitize "user@example.com" ∧
      (sanitize "user@example.com").toList.all wordChar = true :=
  claim6_sanitize_props "user@example.com" "user@example.com" rfl

/-! ## C9 — `formatQueryResult` on message-only and failure results -/

/-- C9: a successful `QueryResult` with no row data and a non-empty
message renders exactly that message, and a failed `QueryResult` renders
exactly `"ERROR: "` followed by its error text. -/
theorem claim9_format_contract (r : QueryResult) :
    (r.success = true → (r.data = none ∨ r.data = some []) →
      ∀ m, r.message = some m → m ≠ "" → formatQueryResult r = m) ∧
    (r.success = false → ∀ e, r.error = some e →
      formatQueryResult r = "ERROR: " ++ e) := by
  constructor
  · intro hs hd m hm hmne
    rcases hd with hd | hd <;>
      simp [formatQueryResult, hs, hd, hm, hmne]
  · intro hs e he
    simp [formatQueryResult, hs, he]

theorem claim9_witness :
    formatQueryResult ⟨true, some [], some "Statement 1 executed successfully.", none, some 0⟩ =
        "Statement 1 executed successfully." ∧
      formatQueryResult ⟨false, none, none, some "Empty query", none⟩ = "ERROR: " ++ "Empty query" :=
  ⟨(claim9_format_contract ⟨true, some [], some "Statement 1 executed successfully.", none, some 0⟩).1
      rfl (Or.inr rfl) _ rfl (by decide),
    (claim9_format_contract ⟨false, none, none, some "Empty query", none⟩).2 rfl _ rfl⟩

/-! ## C10 — introspection samples are bounded by three rows -/

theorem introspectTables_spec (db : TenantDb)
    (ts : List (String × List ColumnInfo × List Row)) :
    ((introspectTables db ts).all fun t => t.sampleData.length ≤ 3) = true ∧
      (introspectTables db ts).map (fun t => t.tableName) = ts.map (fun e => e.1) ∧
      ((introspectTables db ts).all fun t =>
        !db.sampleFails t.tableName || t.sampleData.isEmpty) = true := by
  induction ts with
  | nil => exact ⟨rfl, rfl, rfl⟩
  | cons e rest ih =>
    obtain ⟨name, cols, rows⟩ := e
    refine ⟨?_, ?_, ?_⟩
    · simp only [introspectTables, List.all_cons, ih.1, Bool.and_true]
      unfold tableSample
      split
      · decide
      · simp
    · simp only [introspectTables, List.map_cons, ih.2.1]
    · simp only [introspectTables, List.all_cons, ih.2.2, Bool.and_true]
      unfold tableSample
      split
      · simp_all
      · rename_i hfail
        simp [hfail]

/-- C10: every table reported by `getUserSchemaInfo` carries at most three
sample rows (the sample query uses `LIMIT 3`), every table of the tenant's
schema is reported (a failing sample never drops the table or fails the
call), and a table whose sample query fails is reported with an empty
sample — so every downstream consumer of `sampleData` (in particular the
next-available-id computation) sees at most three rows per table. -/
theorem claim10_sample_bounded (db : TenantDb) :
    ((getUserSchemaInfo db).tables.all fun t => t.sampleData.length ≤ 3) = true ∧
      (getUserSchemaInfo db).tables.map (fun t => t.tableName) =
        db.tables.map (fun e => e.1) ∧
      ((getUserSchemaInfo db).tables.all fun t =>
        !db.sampleFails t.tableName || t.sampleData.isEmpty) = true :=
  introspectTables_spec db db.tables

/-! ## C7 — the next-available-id hint -/

/-- A tenant schema with a single table whose sample query succeeds. -/
def singleTableDb (name : String) (cols : List ColumnInfo) (rows : List Row) : TenantDb :=
  ⟨[(name, cols, rows)], fun _ => false⟩

/-- Rows whose integer `id` primary-key values are exactly 1, 2, 3. -/
def rows123 : List Row := [[("id", "1")], [("id", "2")], [("id", "3")]]

/-- Rows whose integer `id` primary-key values are exactly 1, 2, 3, 4, 5. -/
def rows12345 : List Row :=
  [[("id", "1")], [("id", "2")], [("id", "3")], [("id", "4")], [("id", "5")]]

/-- C7 counterexample: for a table whose existing integer primary-key
values are `{1,2,3,4,5}`, the agent's hint computed from the introspected
data is `4` (the introspection samples only `LIMIT 3` rows), not one plus
the maximum existing primary-key value, which is `6`. -/
theorem claim7_counterexample :
    nextAvailableIds (getUserSchemaInfo (singleTableDb "orders" [] rows12345)).tables =
        [("orders", 4)] ∧
      (rows12345.map rowIdInt).reduceOption.max? = some 5 ∧
      ¬((4 : Int) = 5 + 1) := by decide

/-- C7 amended: the hint equals one plus the maximum parsed `id` among
the introspected sample rows (at most three; `1` when none parses), so it
agrees with one plus the maximum existing primary-key value exactly when
the sample covers the table: for a table with at most three rows the hint
is computed from the full row set; in particular it is `4` for a table
whose `id` values are exactly `{1,2,3}` and `1` for a table with no
rows. -/
theorem claim7_next_id_amended (name : String) (cols : List ColumnInfo)
    (rows : List Row) (h : rows.length ≤ 3) :
    nextAvailableIds (getUserSchemaInfo (singleTableDb name cols rows)).tables =
        [(name, nextAvailableId rows)] ∧
      nextAvailableIds (getUserSchemaInfo (singleTableDb name cols rows123)).tables =
        [(name, 4)] ∧
      nextAvailableIds (getUserSchemaInfo (singleTableDb name cols [])).tables =
        [(name, 1)] := by
  refine ⟨?_, ?_, ?_⟩
  · simp [nextAvailableIds, getUserSchemaInfo, introspectTables, singleTableDb,
      tableSample, List.take_of_length_le h]
  · have h4 : nextAvailableId (rows123.take 3) = 4 := by decide
    simp [nextAvailableIds, getUserSchemaInfo, introspectTables, singleTableDb,
      tableSample, h4]
  · have h1 : nextAvailableId ([] : List Row) = 1 := by decide
    simp [nextAvailableIds, getUserSchemaInfo, introspectTables, singleTableDb,
      tableSample, h1]

theorem claim7_witness :
    nextAvailableIds (getUserSchemaInfo (singleTableDb "orders" [] rows123)).tables =
      [("orders", nextAvailableId rows123)] :=
  (claim7_next_id_amended "orders" [] rows123 (by decide)).1

/-! ## C8 — single-shot generator post-processing -/

theorem endsWithStr_append_semi (s : String) : endsWithStr (s ++ ";") ";" = true := by
  simp [endsWithStr, toList_append, List.isSuffixOf_iff_suffix]

/-- C8 counterexample: model output `"SELECT 1;;"` contains a SQL verb
keyword, so the generator returns success — but the returned `sqlQuery`
keeps both trailing semicolons rather than "exactly one trailing
semicolon". -/
theorem claim8_counterexample :
    generateSQLPost "p" "SELECT 1;;" =
        ⟨true, some "SELECT 1;;", some ("AI generated SQL query for: \"p\""), none⟩ ∧
      exactlyOneTrailingSemi "SELECT 1;;" = false := by decide

/-- C8 amended: if the trimmed model text (lower-cased) contains none of
the SQL verb keywords, the generator fails with `explanation` equal to
that trimmed text; otherwise it succeeds with `sqlQuery` equal to the
fence-stripped text carrying **at least** one trailing semicolon — a
semicolon is appended exactly when the stripped text does not already end
with one (pre-existing repeated semicolons are preserved). -/
theorem claim8_post_amended (prompt rawText : String) :
    (hasSqlKeyword (trimStr rawText) = false →
      generateSQLPost prompt rawText =
        ⟨false, none, some (trimStr rawText),
          some "AI did not generate a valid SQL query. The response might be an explanation or error message."⟩) ∧
    (hasSqlKeyword (trimStr rawText) = true →
      ∃ q, generateSQLPost prompt rawText =
          ⟨true, some q, some ("AI generated SQL query for: \"" ++ prompt ++ "\""), none⟩ ∧
        endsWithStr q ";" = true ∧
        (endsWithStr (stripFencesGen (trimStr rawText)) ";" = true →
          q = stripFencesGen (trimStr rawText)) ∧
        (endsWithStr (stripFencesGen (trimStr rawText)) ";" = false →
          q = stripFencesGen (trimStr rawText) ++ ";")) := by
  constructor
  · intro h
    simp [generateSQLPost, h]
  · intro h
    by_cases hend : endsWithStr (stripFencesGen (trimStr rawText)) ";" = true
    · exact ⟨stripFencesGen (trimStr rawText),
        by simp [generateSQLPost, h, hend], hend, fun _ => rfl,
        fun hc => absurd hend (by simp [hc])⟩
    · refine ⟨stripFencesGen (trimStr rawText) ++ ";",
        by simp [generateSQLPost, h, hend], endsWithStr_append_semi _,
        fun hc => absurd hc hend, fun _ => rfl⟩

theorem claim8_witness :
    generateSQLPost "list users" "I am unable to answer that." =
      ⟨false, none, some "I am unable to answer that.",
        some "AI did not generate a valid SQL query. The response might be an explanation or error message."⟩ :=
  (claim8_post_amended "list users" "I am unable to answer that.").1 (by decide)

/-! ## C1 — foreign `identifier.identifier` references -/

/-- C1: if the lower-cased trimmed query contains an
`identifier.identifier` reference (as extracted by the source's
`/(\w+)\.(\w+)/g` scan) whose left identifier is neither the tenant's
sanitized-and-lowercased schema name nor `public` nor
`information_schema`, then `validateUserSchemaAccess` denies with the
`"Cannot access schema '<x>'"` error; conversely, with no foreign
reference the result is either valid or one of the two other denial
messages — never a `"Cannot access schema"` denial. -/
theorem claim1_validate_foreign_refs (query username : String) :
    ((∃ p ∈ extractRefs (trimStr (lowerStr query)).toList,
        isForeignRef (lowerStr (sanitize username)).toList p.1 = true) →
      ∃ x : String,
        isForeignRef (lowerStr (sanitize username)).toList x.toList = true ∧
        validateUserSchemaAccess query username =
          ⟨false, some (schemaRefErr x (String.mk (lowerStr (sanitize username)).toList))⟩) ∧
    ((∀ p ∈ extractRefs (trimStr (lowerStr query)).toList,
        isForeignRef (lowerStr (sanitize username)).toList p.1 = false) →
      validateUserSchemaAccess query username = ⟨true, none⟩ ∨
      validateUserSchemaAccess query username = ⟨false, some infoSchemaErr⟩ ∨
      validateUserSchemaAccess query username = ⟨false, some publicSchemaErr⟩) := by
  constructor
  · rintro ⟨p, hmem, hfor⟩
    cases hf : (extractRefs (trimStr (lowerStr query)).toList).find?
        (fun p => isForeignRef (lowerStr (sanitize username)).toList p.1) with
    | none =>
        exact absurd hfor (by simpa using List.find?_eq_none.mp hf p hmem)
    | some p' =>
        refine ⟨String.mk p'.1, ?_, ?_⟩
        · have h' := List.find?_some hf
          exact h'
        · simp only [validateUserSchemaAccess, hf]
  · intro hall
    have hf : (extractRefs (trimStr (lowerStr query)).toList).find?
        (fun p => isForeignRef (lowerStr (sanitize username)).toList p.1) = none :=
      List.find?_eq_none.mpr (fun p hp h => by
        have h' : isForeignRef (lowerStr (sanitize username)).toList p.1 = true := h
        rw [hall p hp] at h'
        exact Bool.false_ne_true h')
    simp only [validateUserSchemaAccess, hf]
    split
    · exact Or.inr (Or.inl rfl)
    · split
      · exact Or.inr (Or.inr rfl)
      · exact Or.inl rfl

theorem claim1_witness :
    ∃ x : String,
      isForeignRef (lowerStr (sanitize "alice")).toList x.toList = true ∧
      validateUserSchemaAccess "SELECT * FROM evil.tab" "alice" =
        ⟨false, some (schemaRefErr x (String.mk (lowerStr (sanitize "alice")).toList))⟩ :=
  (claim1_validate_foreign_refs "SELECT * FROM evil.tab" "alice").1
    ⟨("evil".toList, "tab".toList), by decide, by decide⟩

/-! ## C2 — literal `schemaname = '<value>'` filters -/

/-- The denial message always contains `Attempted to access '<v>'`. -/
theorem schemanameDeniedErr_contains (cu v : String) :
    containsSubStr (schemanameDeniedErr cu v)
      ("Attempted to access " ++ sq ++ v ++ sq) = true :=
  containsSubStr_middle _ _ _

/-- C2: a query containing a literal `schemaname = '<value>'` filter whose
value differs from the tenant's sanitized schema name is denied by
`executeUserQuery` with the `Attempted to access '<value>'` error (citing
the first differing value), with no driver call issued and the database
state untouched — for every driver model and database state. -/
theorem claim2_schemaname_literal_denied {Db : Type} (m : DbModel Db) (db : Db)
    (username query : String)
    (h : ∃ v ∈ scanSchemaname (trimStr query), v ≠ sanitize username) :
    ∃ v ∈ scanSchemaname (trimStr query), v ≠ sanitize username ∧
      executeUserQuery m db username query =
        ⟨db, [], ⟨false, none, none,
          some (schemanameDeniedErr (sanitize username) v), none⟩⟩ ∧
      containsSubStr (schemanameDeniedErr (sanitize username) v)
        ("Attempted to access " ++ sq ++ v ++ sq) = true := by
  obtain ⟨v0, hv0mem, hv0ne⟩ := h
  have hne : ¬(trimStr query = "") := by
    intro h0
    rw [h0] at hv0mem
    exact List.not_mem_nil v0 hv0mem
  cases hf : (scanSchemaname (trimStr query)).find? (fun v => v ≠ sanitize username) with
  | none =>
      exact absurd hv0ne (by simpa using List.find?_eq_none.mp hf v0 hv0mem)
  | some v =>
      have hvne : v ≠ sanitize username := by simpa using List.find?_some hf
      have hvmem := List.mem_of_find?_eq_some hf
      refine ⟨v, hvmem, hvne, ?_, schemanameDeniedErr_contains _ _⟩
      simp only [executeUserQuery, if_neg hne, hf]

theorem claim2_witness :
    ∃ v ∈ scanSchemaname
        (trimStr ("SELECT tablename FROM pg_tables WHERE schemaname = " ++
          sq ++ "other_user" ++ sq)),
      v ≠ sanitize "alice" ∧
        executeUserQuery (⟨fun _ db => .ok db, fun _ db => .ok (db, .other)⟩ : DbModel Unit)
            () "alice"
            ("SELECT tablename FROM pg_tables WHERE schemaname = " ++
              sq ++ "other_user" ++ sq) =
          ⟨(), [], ⟨false, none, none,
            some (schemanameDeniedErr (sanitize "alice") v), none⟩⟩ ∧
        containsSubStr (schemanameDeniedErr (sanitize "alice") v)
          ("Attempted to access " ++ sq ++ v ++ sq) = true :=
  claim2_schemaname_literal_denied _ () "alice" _ ⟨"other_user", by decide, by decide⟩

/-! ## C3 — dangerous operations are refused for every tenant -/

/-- C3: a query matching one of the fixed dangerous patterns
(`DROP DATABASE`, `CREATE DATABASE`, `DROP USER`, `CREATE USER`, `GRANT`,
`REVOKE`, `pg_authid`, `pg_shadow`, `pg_user`, case-insensitive) makes
`executeUserQuery` return failure with no driver call issued and the
database state untouched, for every tenant and every driver model. -/
theorem claim3_dangerous_refused {Db : Type} (m : DbModel Db) (db : Db)
    (username query : String) (h : dangerousHit (trimStr query) = true) :
    (executeUserQuery m db username query).result.success = false ∧
      (executeUserQuery m db username query).trace = [] ∧
      (executeUserQuery m db username query).db = db := by
  simp only [executeUserQuery]
  by_cases he : trimStr query = ""
  · rw [if_pos he]
    exact ⟨by trivial, by trivial, by trivial⟩
  · rw [if_neg he]
    cases hf : (scanSchemaname (trimStr query)).find? (fun v => v ≠ sanitize username) with
    | some v =>
      simp only [hf]
      exact ⟨by trivial, by trivial, by trivial⟩
    | none =>
      simp only [hf]
      by_cases hv : (validateUserSchemaAccess (trimStr query) username).isValid = false
      · rw [if_pos hv]
        exact ⟨by trivial, by trivial, by trivial⟩
      · rw [if_neg hv, if_pos h]
        exact ⟨by trivial, by trivial, by trivial⟩

theorem claim3_witness :
    (executeUserQuery (⟨fun _ db => .ok db, fun _ db => .ok (db, .other)⟩ : DbModel Unit)
        () "bob" "GRANT ALL ON accounts TO intruder").result.success = false ∧
      (executeUserQuery (⟨fun _ db => .ok db, fun _ db => .ok (db, .other)⟩ : DbModel Unit)
        () "bob" "GRANT ALL ON accounts TO intruder").trace = [] ∧
      (executeUserQuery (⟨fun _ db => .ok db, fun _ db => .ok (db, .other)⟩ : DbModel Unit)
        () "bob" "GRANT ALL ON accounts TO intruder").db = () :=
  claim3_dangerous_refused _ () "bob" "GRANT ALL ON accounts TO intruder" (by decide)

/-! ## Statement-list and transaction lemmas (for C4 and C5) -/

theorem mk_toList (s : String) : String.mk s.toList = s := rfl

theorem setPathCmd_toList3 (sn : String) :
    (setPathCmd sn).toList =
      'S' :: 'E' :: 'T' :: (" search_path TO \"".toList ++ (sn.toList ++ ['"'])) := by
  simp [setPathCmd, toList_append, List.append_assoc]

theorem setPathCmd_shape (sn : String) :
    (setPathCmd sn).toList =
      'S' :: (("ET search_path TO \"".toList ++ sn.toList) ++ ['"']) := by
  simp [setPathCmd, toList_append, List.append_assoc]

theorem trimChars_cons_concat (c : Char) (mid : List Char) (d : Char)
    (hc : isJsSpace c = false) (hd : isJsSpace d = false) :
    trimChars (c :: (mid ++ [d])) = c :: (mid ++ [d]) := by
  unfold trimChars
  rw [List.dropWhile_cons]
  simp only [hc, Bool.false_eq_true, if_false]
  rw [show (c :: (mid ++ [d])).reverse = d :: (mid.reverse ++ [c]) from by simp,
    List.dropWhile_cons]
  simp only [hd, Bool.false_eq_true, if_false]
  simp

theorem trimChars_setPathCmd (sn : String) :
    trimChars (setPathCmd sn).toList = (setPathCmd sn).toList := by
  rw [setPathCmd_shape]
  exact trimChars_cons_concat _ _ _ (by decide) (by decide)

theorem setPathCmd_no_semi (u : String) : ';' ∉ (setPathCmd (sanitize u)).toList := by
  rw [setPathCmd_shape]
  intro hmem
  rcases List.mem_cons.mp hmem with hc | hmem
  · exact absurd hc (by decide)
  rcases List.mem_append.mp hmem with hmem | hc
  · rcases List.mem_append.mp hmem with hc | hmem
    · exact absurd hc (by decide)
    · exact sanitizeChars_no_semicolon u.toList (sanitize_toList u ▸ hmem)
  · exact absurd hc (by decide)

theorem setPathCmd_ne_empty (sn : String) : setPathCmd sn ≠ "" := by
  intro h
  have := congrArg String.toList h
  rw [setPathCmd_shape] at this
  exact List.cons_ne_nil _ _ this

theorem splitSemi_append (a b : List Char) (ha : ';' ∉ a) :
    splitSemi (a ++ ';' :: b) = a :: splitSemi b := by
  induction a with
  | nil => simp [splitSemi]
  | cons c a ih =>
    have hc : ¬(c = ';') := by
      intro h
      exact ha (by rw [h]; exact List.mem_cons_self _ _)
    have ha' : ';' ∉ a := fun hm => ha (List.mem_cons_of_mem c hm)
    rw [List.cons_append]
    simp only [splitSemi, if_neg hc, ih ha']

/-- The statement list always starts with the prepended
`SET search_path` command. -/
theorem statementList_cons (u processed : String) :
    statementList (sanitize u) processed =
      setPathCmd (sanitize u) ::
        (((splitSemi (' ' :: processed.toList)).map
          (fun f => String.mk (trimChars f))).filter (fun s => s ≠ "")) := by
  unfold statementList
  have h1 : (setPathCmd (sanitize u) ++ "; " ++ processed).toList
      = (setPathCmd (sanitize u)).toList ++ ';' :: (' ' :: processed.toList) := by
    simp [toList_append, List.append_assoc]
  rw [h1, splitSemi_append _ _ (setPathCmd_no_semi u)]
  simp only [List.map_cons, List.filter_cons, trimChars_setPathCmd, mk_toList]
  rw [if_pos (by simp [setPathCmd_ne_empty (sanitize u)])]

/-- The `SET search_path` command is sent verbatim (it keeps its `SET`
prefix after upper-casing, so no semicolon is appended). -/
theorem toExecStr_setPath (sn : String) : toExecStr (setPathCmd sn) = setPathCmd sn := by
  unfold toExecStr
  rw [if_pos]
  show startsWithStr (upperStr (setPathCmd sn)) "SET" = true
  unfold startsWithStr upperStr
  rw [show (String.mk ((setPathCmd sn).toList.map Char.toUpper)).toList
      = (setPathCmd sn).toList.map Char.toUpper from rfl, setPathCmd_toList3]
  simp [List.isPrefixOf]

/-- On success the transaction executed every statement, in order. -/
theorem txRun_ok {Db : Type} (m : DbModel Db) (stmts : List String) :
    ∀ (i : Nat) (db : Db) (tr : List DbCall) (db2 : Db) (rs : List Row) (cnt : Int)
      (msgs : List String),
      txRun m i db stmts = (tr, .ok (db2, rs, cnt, msgs)) →
      tr = stmts.map (fun s => DbCall.exec (toExecStr s)) ∧ msgs.length = stmts.length := by
  induction stmts with
  | nil =>
    intro i db tr db2 rs cnt msgs h
    simp only [txRun, Prod.mk.injEq, Except.ok.injEq] at h
    obtain ⟨h1, -, -, -, h4⟩ := h
    simp [← h1, ← h4]
  | cons s rest ih =>
    intro i db tr db2 rs cnt msgs h
    simp only [txRun] at h
    cases hx : m.execStmt (toExecStr s) db with
    | error e0 =>
      simp [hx] at h
    | ok dr =>
      obtain ⟨db', res⟩ := dr
      simp only [hx] at h
      cases hrec : txRun m (i + 1) db' rest with
      | mk tr' r =>
        simp only [hrec] at h
        cases r with
        | error e' => simp at h
        | ok four =>
          obtain ⟨db2', rs2, c2, ms2⟩ := four
          simp only [Prod.mk.injEq, Except.ok.injEq] at h
          obtain ⟨h1, -, -, -, h4⟩ := h
          obtain ⟨htr, hmsgs⟩ := ih (i + 1) db' tr' db2' rs2 c2 ms2 hrec
          constructor
          · rw [← h1, htr]
            simp
          · rw [← h4]
            simp [hmsgs]

/-- On failure the transaction stopped at the first failing statement
`k`, executed exactly the statements up to and including it, and threw
the wrapped per-statement error. -/
theorem txRun_error {Db : Type} (m : DbModel Db) (stmts : List String) :
    ∀ (i : Nat) (db : Db) (tr : List DbCall) (e : String),
      txRun m i db stmts = (tr, .error e) →
      ∃ k stmt e0, k < stmts.length ∧ stmts[k]? = some stmt ∧
        e = wrapStmtErr (i + k) stmt e0 ∧
        tr = (stmts.take (k + 1)).map (fun s => DbCall.exec (toExecStr s)) := by
  induction stmts with
  | nil =>
    intro i db tr e h
    simp [txRun] at h
  | cons s rest ih =>
    intro i db tr e h
    simp only [txRun] at h
    cases hx : m.execStmt (toExecStr s) db with
    | error e0 =>
      simp only [hx, Prod.mk.injEq, Except.error.injEq] at h
      obtain ⟨h1, h2⟩ := h
      refine ⟨0, s, e0, by simp, by simp, ?_, ?_⟩
      · rw [← h2, Nat.add_zero]
      · simp [← h1]
    | ok dr =>
      obtain ⟨db', res⟩ := dr
      simp only [hx] at h
      cases hrec : txRun m (i + 1) db' rest with
      | mk tr' r =>
        simp only [hrec] at h
        cases r with
        | ok four =>
          obtain ⟨db2', rs2, c2, ms2⟩ := four
          simp at h
        | error e' =>
          simp only [Prod.mk.injEq, Except.error.injEq] at h
          obtain ⟨h1, h2⟩ := h
          obtain ⟨k', stmt, e0, hk, hget, he, htr⟩ := ih (i + 1) db' tr' e' hrec
          refine ⟨k' + 1, stmt, e0, by simpa using Nat.succ_lt_succ hk, by simpa using hget,
            ?_, ?_⟩
          · rw [← h2, he]
            congr 1
            omega
          · rw [← h1, htr]
            simp

/-- The pure pre-execution checks of `executeUserQuery` (non-empty query,
no foreign `schemaname` literal, validator approval, no dangerous
pattern). -/
def passesChecks (username query : String) : Bool :=
  !decide (trimStr query = "") &&
    decide ((scanSchemaname (trimStr query)).find? (fun v => v ≠ sanitize username) = none) &&
    (validateUserSchemaAccess (trimStr query) username).isValid &&
    !dangerousHit (trimStr query)

/-- When the checks pass and the schema setup succeeds, `executeUserQuery`
is the transaction phase applied to the statement list built from the
cleaned query. -/
theorem executeUserQuery_run {Db : Type} (m : DbModel Db) (db db1 : Db)
    (username query : String)
    (h1 : passesChecks username query = true)
    (h2 : m.createSchema (sanitize username) db = .ok db1) :
    executeUserQuery m db username query =
      runPhase m db1 (sanitize username)
        (statementList (sanitize username)
          (String.mk (cleanupAI (trimStr query).toList))) := by
  simp only [passesChecks, Bool.and_eq_true, Bool.not_eq_true', decide_eq_true_eq,
    decide_eq_false_iff_not] at h1
  obtain ⟨⟨⟨hne, hfind⟩, hvalid⟩, hdanger⟩ := h1
  have hne' : ¬(trimStr query = "") := by
    intro h0
    rw [h0] at hne
    simp at hne
  have hconsn : statementList (sanitize username)
      (String.mk (cleanupAI (trimStr query).toList)) ≠ [] := by
    rw [statementList_cons]
    exact List.cons_ne_nil _ _
  simp only [executeUserQuery, if_neg hne', hfind, hvalid, hdanger, h2,
    Bool.true_eq_false, Bool.false_eq_true, if_false, if_neg hconsn]

/-! ## C5 — the `SET search_path` prelude -/

/-- A driver model over `Unit` whose statements all succeed. -/
def unitDbModel : DbModel Unit :=
  ⟨fun _ db => .ok db, fun _ db => .ok (db, .other)⟩

/-- The transaction phase always issues the first statement first. -/
theorem runPhase_trace_cons {Db : Type} (m : DbModel Db) (db1 : Db)
    (sn s : String) (rest : List String) :
    ∃ tr, (runPhase m db1 sn (s :: rest)).trace =
      DbCall.createSchema sn :: DbCall.exec (toExecStr s) :: tr := by
  unfold runPhase
  simp only [txRun]
  cases hx : m.execStmt (toExecStr s) db1 with
  | error e0 => exact ⟨[], by simp [hx]⟩
  | ok dr =>
    obtain ⟨db', res⟩ := dr
    cases hrec : txRun m 1 db' rest with
    | mk tr' r =>
      cases r with
      | error e' => exact ⟨tr', by simp [hx, hrec]⟩
      | ok four =>
        obtain ⟨db2', rs2, c2, ms2⟩ := four
        exact ⟨tr', by simp [hx, hrec]⟩

/-- C5 counterexample: the caller's query already contains a
`SET search_path` statement, yet `executeUserQuery` still prepends its
own — the executed statement list carries both (the claim's "no second
one is prepended" exception does not exist in the code). -/
theorem claim5_counterexample :
    containsSubStr "SET search_path TO \"x\"; SELECT 1" "search_path" = true ∧
      (executeUserQuery unitDbModel () "alice" "SET search_path TO \"x\"; SELECT 1").trace =
        [DbCall.createSchema "alice", DbCall.exec (setPathCmd "alice"),
          DbCall.exec "SET search_path TO \"x\"", DbCall.exec "SELECT 1;"] ∧
      ((executeUserQuery unitDbModel () "alice"
          "SET search_path TO \"x\"; SELECT 1").trace.filter
        (fun c => match c with
          | DbCall.exec s => containsSubStr s "search_path"
          | DbCall.createSchema _ => false)).length = 2 := by
  have hrun := executeUserQuery_run unitDbModel () () "alice"
    "SET search_path TO \"x\"; SELECT 1" (by decide) rfl
  refine ⟨by decide, ?_, ?_⟩
  · rw [hrun]
    decide
  · rw [hrun]
    decide

/-- C5 amended: on every call that reaches execution, `executeUserQuery`
unconditionally makes `SET search_path TO "<schemaName>"` the first
statement of the executed statement list — also when the caller's query
already includes a `search_path` statement, which then additionally
appears later in the list. -/
theorem claim5_search_path_first {Db : Type} (m : DbModel Db) (db db1 : Db)
    (username query : String)
    (h1 : passesChecks username query = true)
    (h2 : m.createSchema (sanitize username) db = .ok db1) :
    (∃ rest, statementList (sanitize username)
        (String.mk (cleanupAI (trimStr query).toList)) =
        setPathCmd (sanitize username) :: rest) ∧
      ∃ tr, (executeUserQuery m db username query).trace =
        DbCall.createSchema (sanitize username) ::
          DbCall.exec (setPathCmd (sanitize username)) :: tr := by
  constructor
  · exact ⟨_, statementList_cons username _⟩
  · rw [executeUserQuery_run m db db1 username query h1 h2, statementList_cons username]
    obtain ⟨tr, htr⟩ := runPhase_trace_cons m db1 (sanitize username)
      (setPathCmd (sanitize username)) _
    rw [toExecStr_setPath] at htr
    exact ⟨tr, htr⟩

theorem claim5_witness :
    (∃ rest, statementList (sanitize "alice")
        (String.mk (cleanupAI (trimStr "SELECT 1").toList)) =
        setPathCmd (sanitize "alice") :: rest) ∧
      ∃ tr, (executeUserQuery unitDbModel () "alice" "SELECT 1").trace =
        DbCall.createSchema (sanitize "alice") ::
          DbCall.exec (setPathCmd (sanitize "alice")) :: tr :=
  claim5_search_path_first unitDbModel () () "alice" "SELECT 1" (by decide) rfl

/-! ## C4 — batch execution: atomicity and failure reporting -/

/-- A driver model over `Unit` where every non-`SET` statement throws a
PostgreSQL syntax error. -/
def synErrModel : DbModel Unit :=
  ⟨fun _ db => .ok db, fun s db =>
    if startsWithStr s "SET" then .ok (db, .other)
    else .error "syntax error at end of input"⟩

/-- C4 counterexample: when the first failing statement's driver error
contains a recognized PostgreSQL phrase (here `syntax error`), the outer
error rewriting replaces the whole wrapped message, so the returned
failure cites neither the failing statement's index nor its text. -/
theorem claim4_counterexample :
    (executeUserQuery synErrModel () "alice" "SELEC 1").result.success = false ∧
      (executeUserQuery synErrModel () "alice" "SELEC 1").result.error =
        some "Syntax error in SQL query" ∧
      containsSubStr "Syntax error in SQL query" "SELEC 1" = false ∧
      containsSubStr "Syntax error in SQL query" "Error in statement" = false := by
  have hrun := executeUserQuery_run synErrModel () () "alice" "SELEC 1" (by decide) rfl
  refine ⟨?_, ?_, by decide, by decide⟩ <;> rw [hrun] <;> decide

/-- C4 amended: a raw submission that reaches execution either succeeds
with every statement of the split list executed in order inside the one
transaction (and an aggregated row count), or fails as a single failure:
execution stopped at the first failing statement `k`, the transaction
rolled back (the returned state is the pre-transaction state, so no
effect of the batch survives), and the error is the wrapped message
citing the one-based index and text of that statement — after the outer
rewriting `mapPgError`, which replaces the whole message with a canonical
phrase when the driver error contains a recognized PostgreSQL phrase. -/
theorem claim4_batch_amended {Db : Type} (m : DbModel Db) (db db1 : Db)
    (u q : String)
    (h1 : passesChecks u q = true)
    (h2 : m.createSchema (sanitize u) db = .ok db1) :
    ∃ stmts, stmts = statementList (sanitize u)
        (String.mk (cleanupAI (trimStr q).toList)) ∧
      (((executeUserQuery m db u q).result.success = true ∧
          (executeUserQuery m db u q).trace =
            DbCall.createSchema (sanitize u) ::
              stmts.map (fun s => DbCall.exec (toExecStr s)) ∧
          ∃ rows msg cnt, (executeUserQuery m db u q).result =
            ⟨true, some rows, some msg, none, some cnt⟩) ∨
        ((executeUserQuery m db u q).result.success = false ∧
          (executeUserQuery m db u q).db = db1 ∧
          ∃ k stmt e0, k < stmts.length ∧ stmts[k]? = some stmt ∧
            (executeUserQuery m db u q).result.error =
              some (mapPgError (wrapStmtErr k stmt e0)) ∧
            (executeUserQuery m db u q).trace =
              DbCall.createSchema (sanitize u) ::
                (stmts.take (k + 1)).map (fun s => DbCall.exec (toExecStr s)))) := by
  refine ⟨_, rfl, ?_⟩
  rw [executeUserQuery_run m db db1 u q h1 h2]
  unfold runPhase
  cases htx : txRun m 0 db1 (statementList (sanitize u)
      (String.mk (cleanupAI (trimStr q).toList))) with
  | mk tr r =>
    cases r with
    | ok four =>
      obtain ⟨db2, rs, cnt, msgs⟩ := four
      left
      obtain ⟨htr, -⟩ := txRun_ok m _ 0 db1 tr db2 rs cnt msgs htx
      exact ⟨rfl, by rw [htr], rs, successMessage msgs, cnt, rfl⟩
    | error e =>
      right
      obtain ⟨k, stmt, e0, hk, hget, he, htr⟩ := txRun_error m _ 0 db1 tr e htx
      refine ⟨rfl, rfl, k, stmt, e0, hk, hget, ?_, by rw [htr]⟩
      rw [he, Nat.zero_add]

theorem claim4_witness :
    ∃ stmts, stmts = statementList (sanitize "alice")
        (String.mk (cleanupAI (trimStr "SELECT 1").toList)) ∧
      (((executeUserQuery unitDbModel () "alice" "SELECT 1").result.success = true ∧
          (executeUserQuery unitDbModel () "alice" "SELECT 1").trace =
            DbCall.createSchema (sanitize "alice") ::
              stmts.map (fun s => DbCall.exec (toExecStr s)) ∧
          ∃ rows msg cnt, (executeUserQuery unitDbModel () "alice" "SELECT 1").result =
            ⟨true, some rows, some msg, none, some cnt⟩) ∨
        ((executeUserQuery unitDbModel () "alice" "SELECT 1").result.success = false ∧
          (executeUserQuery unitDbModel () "alice" "SELECT 1").db = () ∧
          ∃ k stmt e0, k < stmts.length ∧ stmts[k]? = some stmt ∧
            (executeUserQuery unitDbModel () "alice" "SELECT 1").result.error =
              some (mapPgError (wrapStmtErr k stmt e0)) ∧
            (executeUserQuery unitDbModel () "alice" "SELECT 1").trace =
              DbCall.createSchema (sanitize "alice") ::
                (stmts.take (k + 1)).map (fun s => DbCall.exec (toExecStr s)))) :=
  claim4_batch_amended unitDbModel () () "alice" "SELECT 1" (by decide) rfl

end SqlPlus
